import Mathlib

/-
Verification of the runtime-generics analyzer (analyzer.py).

The development shallow-embeds the three cores of the program:
  * the syntactic generic-class detector (GenericClassVisitor),
  * the source patcher (FileTransformer) over a small concrete syntax tree
    that mirrors the libcst nodes the program inspects,
  * the per-file comparison driver (compare_files / compare_dirs), with
    module imports represented as environment-supplied Except values.

Machine strings are Lean String; Python list state is Lean List.
-/

/- Shared helper: both _find_TypeVar and _find_GenericAlias in the source are
the same loop over import aliases: the first alias whose original name equals
the requested namespace is returned, under its asname when present. -/
def find_alias (aliases : List (String × Option String)) (ns : String) : Option String :=
  match aliases with
  | [] => none
  | (origin, asn) :: rest =>
      if origin ≠ ns then find_alias rest ns
      else
        match asn with
        | some a => some a
        | none => some origin

/- Python str.split on a dot: used by visit_Assign on the stored dotted
type-variable binding. -/
def splitDotAux : List Char → List Char → List String
  | [], acc => [String.mk acc.reverse]
  | c :: rest, acc =>
      if c = '.' then String.mk acc.reverse :: splitDotAux rest []
      else splitDotAux rest (c :: acc)

def splitDot (s : String) : List String := splitDotAux s.data []

/- Python str.rstrip with a character-set argument: removes the longest
trailing run of characters drawn from the given set.  This is what
_convert_to_module_path calls with the extension string. -/
def pyRstrip (s : String) (chars : String) : String :=
  String.mk ((s.data.reverse.dropWhile (fun c => chars.data.contains c)).reverse)

/- _convert_to_module_path from the source: join the path parts with dots,
then rstrip the extension string. -/
def convert_to_module_path (parts : List String) (ext : String) : String :=
  pyRstrip (String.intercalate "." parts) ext

/-- Modelled from the spec (for refinement comparison only): the spec says the
dotted import path is obtained by joining path components with dots and
stripping the file extension from the end. -/
def spec_convert_to_module_path (parts : List String) (ext : String) : String :=
  let j := String.intercalate "." parts
  if ext.data.isSuffixOf j.data then String.mk (j.data.take (j.data.length - ext.data.length))
  else j

/- ===================== Stub-side syntactic detector ===================== -/

/- The right-hand side of an assignment, as visit_Assign inspects it:
not a call, a call of a bare name, or a call of a dotted attribute. -/
inductive AValue where
  | notCall
  | callName (fn : String)
  | callAttr (obj : String) (attr : String)

/- A base expression of a class definition: either not a Subscript, or a
Subscript whose slice elements index with the given bare names. -/
inductive SBase where
  | plain
  | subscript (indices : List String)

mutual
inductive SStmt where
  | imp (aliases : List (String × Option String))
  | impFrom (moduleName : String) (star : Bool) (aliases : List (String × Option String))
  | assign (target : String) (value : AValue)
  | classDef (name : String) (typeParams : Bool) (bases : List SBase) (body : SBody)
inductive SBody where
  | nil
  | cons (s : SStmt) (rest : SBody)
end

/- The mutable state of GenericClassVisitor. -/
structure VState where
  typevar_name : String
  typevars : List String
  generic_class_names : List String

def initVState : VState := ⟨"", [], []⟩

/- GenericClassVisitor.visit_Assign. -/
def visit_Assign (s : VState) (target : String) (v : AValue) : VState :=
  if s.typevar_name = "" then s
  else
    match v with
    | .notCall => s
    | .callAttr obj attr =>
        if s.typevar_name.data.contains '.' then
          match splitDot s.typevar_name with
          | [m, n] =>
              if obj = m ∧ attr = n then
                { s with typevars := s.typevars ++ [target] }
              else s
          | _ => s
        else s
    | .callName fn =>
        if fn = s.typevar_name then { s with typevars := s.typevars ++ [target] }
        else s

/- GenericClassVisitor.visit_Import. -/
def visit_Import (s : VState) (aliases : List (String × Option String)) : VState :=
  match find_alias aliases "typing" with
  | some n => { s with typevar_name := n ++ ".TypeVar" }
  | none => s

/- GenericClassVisitor.visit_ImportFrom. -/
def visit_ImportFrom (s : VState) (m : String) (star : Bool)
    (aliases : List (String × Option String)) : VState :=
  if m = "typing" then
    if star then { s with typevar_name := "TypeVar" }
    else
      match find_alias aliases "TypeVar" with
      | some n => { s with typevar_name := n }
      | none => s
  else s

def baseMatches (tvs : List String) : SBase → Bool
  | .plain => false
  | .subscript idxs => idxs.any (fun i => tvs.contains i)

def basesMatch (tvs : List String) (bases : List SBase) : Bool :=
  bases.any (baseMatches tvs)

/- GenericClassVisitor.visit_ClassDef: a class with type parameters is
recorded unconditionally; otherwise the first base subscripted with a
registered type variable records the class. -/
def visit_ClassDef (s : VState) (name : String) (tp : Bool) (bases : List SBase) : VState :=
  if tp then { s with generic_class_names := s.generic_class_names ++ [name] }
  else if basesMatch s.typevars bases then
    { s with generic_class_names := s.generic_class_names ++ [name] }
  else s

/- The libcst traversal: statements in document order, class bodies visited
after the visit of the class node itself. -/
mutual
def visitS : VState → SStmt → VState
  | s, .imp al => visit_Import s al
  | s, .impFrom m st al => visit_ImportFrom s m st al
  | s, .assign t v => visit_Assign s t v
  | s, .classDef n tp bs b => visitBody (visit_ClassDef s n tp bs) b
def visitBody : VState → SBody → VState
  | s, .nil => s
  | s, .cons st r => visitBody (visitS s st) r
end

/- _get_ast_generic_classes: run a fresh visitor over the module and read
off the collected names. -/
def get_ast_generic_classes (m : SBody) : List String :=
  (visitBody initVState m).generic_class_names

/- All class-definition names occurring in a stub, in document order. -/
mutual
def classNamesS : SStmt → List String
  | .classDef n _ _ b => n :: classNamesB b
  | _ => []
def classNamesB : SBody → List String
  | .nil => []
  | .cons s r => classNamesS s ++ classNamesB r
end

/- ===================== Implementation-side patcher ===================== -/

/- The concrete syntax the patcher manipulates.  A class body is either a
one-line SimpleStatementSuite (suite = true; the indent field is unused) or
an IndentedBlock carrying its indentation string.  Plain statements that the
transformer never rewrites are kept as their source text. -/
mutual
inductive TStmt where
  | imp (aliases : List (String × Option String))
  | impFrom (moduleName : String) (star : Bool) (aliases : List (String × Option String))
  | line (text : String)
  | classDef (name : String) (suite : Bool) (indent : String) (body : TBody)
inductive TBody where
  | nil
  | cons (s : TStmt) (rest : TBody)
end

def TBody.single (s : TStmt) : TBody := .cons s .nil

def TBody.append : TBody → TBody → TBody
  | .nil, b => b
  | .cons s r, b => .cons s (TBody.append r b)

def TBody.toList : TBody → List TStmt
  | .nil => []
  | .cons s r => s :: TBody.toList r

def renderAlias : String × Option String → String
  | (n, none) => n
  | (n, some a) => n ++ " as " ++ a

def renderAliases (al : List (String × Option String)) : String :=
  String.intercalate ", " (al.map renderAlias)

/- The source text of a small statement, used when a one-line suite is
wrapped into a single statement line by leave_ClassDef. -/
def smallText : TStmt → String
  | .line t => t
  | .imp al => String.append "import " (renderAliases al)
  | .impFrom m star al =>
      "from " ++ m ++ " import " ++ (if star then "*" else renderAliases al)
  | .classDef _ _ _ _ => ""

def suiteTexts : TBody → List String
  | .nil => []
  | .cons s r => smallText s :: suiteTexts r

def suiteJoin (b : TBody) : String := String.intercalate "; " (suiteTexts b)

/- cst.IndentedBlock built with default parameters renders with the module
default indentation. -/
def defaultIndent : String := "    "

/- cst.parse_statement of the synthesized import. -/
def synthImport : TStmt := .impFrom "types" false [("GenericAlias", none)]

/- cst.parse_statement of the appended member, for the current alias. -/
def memberLine (a : String) : TStmt :=
  .line ("__class_getitem__ = classmethod(" ++ a ++ ")")

/- FileTransformer.visit_Import: a whole-module import of types binds the
dotted alias. -/
def ft_visit_Import (g : String) (al : List (String × Option String)) : String :=
  match find_alias al "types" with
  | some n => n ++ ".GenericAlias"
  | none => g

/- FileTransformer.visit_ImportFrom: a from-import of types binds the plain
alias (GenericAlias when star-imported). -/
def ft_visit_ImportFrom (g : String) (m : String) (star : Bool)
    (al : List (String × Option String)) : String :=
  if m = "types" then
    if star then "GenericAlias"
    else
      match find_alias al "GenericAlias" with
      | some n => n
      | none => g
  else g

/- The full transformer pass.  State is the _generic_alias_cls string,
threaded in document order; class bodies are transformed before the leave of
the class itself (libcst leaves fire bottom-up).  leave_ClassDef on a match
rebuilds the body from the ORIGINAL statements of the class (not the
transformed children), appends the member, and, when no alias is bound yet,
flattens in the synthesized import directly before the class. -/
mutual
def transform_stmt (gen : List String) (g : String) : TStmt → String × TBody
  | .imp al => (ft_visit_Import g al, TBody.single (.imp al))
  | .impFrom m star al => (ft_visit_ImportFrom g m star al, TBody.single (.impFrom m star al))
  | .line t => (g, TBody.single (.line t))
  | .classDef name suite ind body =>
      let p := transform_body gen g body
      if gen.contains name then
        let g2 := if p.1 = "" then "GenericAlias" else p.1
        let orig := if suite then TBody.single (.line (suiteJoin body)) else body
        let cls := TStmt.classDef name false defaultIndent
          (TBody.append orig (TBody.single (memberLine g2)))
        (g2, if p.1 = "" then TBody.cons synthImport (TBody.single cls) else TBody.single cls)
      else
        (p.1, TBody.single (.classDef name suite ind p.2))
def transform_body (gen : List String) (g : String) : TBody → String × TBody
  | .nil => (g, .nil)
  | .cons s r =>
      let p := transform_stmt gen g s
      let q := transform_body gen p.1 r
      (q.1, TBody.append p.2 q.2)
end

/- The fix as compare_files invokes it: a fresh FileTransformer (alias state
empty) over the whole module tree. -/
def fileTransform (gen : List String) (m : TBody) : TBody :=
  (transform_body gen "" m).2

/- Serialization back to source text (Module.code). -/
mutual
def renderStmt (pre : String) : TStmt → String
  | .line t => pre ++ t ++ "\n"
  | .imp al => pre ++ smallText (.imp al) ++ "\n"
  | .impFrom m star al => pre ++ smallText (.impFrom m star al) ++ "\n"
  | .classDef name suite ind body =>
      if suite then pre ++ "class " ++ name ++ ": " ++ suiteJoin body ++ "\n"
      else pre ++ "class " ++ name ++ ":\n" ++ renderBody (pre ++ ind) body
def renderBody (pre : String) : TBody → String
  | .nil => ""
  | .cons s r => renderStmt pre s ++ renderBody pre r
end

/- Number of import statements that mention the types namespace (and would
therefore bind _generic_alias_cls), counted through class bodies. -/
mutual
def typesImportCountS : TStmt → Nat
  | .imp al => if (find_alias al "types").isSome then 1 else 0
  | .impFrom m _ _ => if m = "types" then 1 else 0
  | .line _ => 0
  | .classDef _ _ _ b => typesImportCountB b
def typesImportCountB : TBody → Nat
  | .nil => 0
  | .cons s r => typesImportCountS s + typesImportCountB r
end

def isGetitemLine : TStmt → Bool
  | .line t => "__class_getitem__".data.isPrefixOf t.data
  | _ => false

/- Number of statement lines binding __class_getitem__, counted through
class bodies. -/
mutual
def getitemCountS : TStmt → Nat
  | .classDef _ _ _ b => getitemCountB b
  | s => if isGetitemLine s then 1 else 0
def getitemCountB : TBody → Nat
  | .nil => 0
  | .cons s r => getitemCountS s + getitemCountB r
end

/- A statement contains (at any depth) a class definition whose name is in
the unsupported set. -/
mutual
def containsMatchedS (gen : List String) : TStmt → Bool
  | .classDef n _ _ b => gen.contains n || containsMatchedB gen b
  | _ => false
def containsMatchedB (gen : List String) : TBody → Bool
  | .nil => false
  | .cons s r => containsMatchedS gen s || containsMatchedB gen r
end

/- A statement the transformer passes through without touching its output or
its alias state: no types import and no matched class anywhere inside. -/
mutual
def cleanS (gen : List String) : TStmt → Bool
  | .imp al => (find_alias al "types").isNone
  | .impFrom m _ _ => !(m == "types")
  | .line _ => true
  | .classDef n _ _ b => !(gen.contains n) && cleanB gen b
def cleanB (gen : List String) : TBody → Bool
  | .nil => true
  | .cons s r => cleanS gen s && cleanB gen r
end

def isLine : TStmt → Bool
  | .line _ => true
  | _ => false

def linesOnly : TBody → Bool
  | .nil => true
  | .cons s r => isLine s && linesOnly r

def aliasOk : String × Option String → Bool
  | (n, none) => !(n == "")
  | (n, some a) => !(n == "") && !(a == "")

/- Well-formedness of inputs as real parsed Python gives them: import
aliases are nonempty identifiers, and one-line suites hold only simple
statement lines. -/
mutual
def wfS : TStmt → Bool
  | .imp al => al.all aliasOk
  | .impFrom _ _ al => al.all aliasOk
  | .line _ => true
  | .classDef _ suite _ b => (if suite then linesOnly b else true) && wfB b
def wfB : TBody → Bool
  | .nil => true
  | .cons s r => wfS s && wfB r
end

/- A statement that binds _generic_alias_cls when visited: a module import
mentioning types, or a from types import that is starred or names
GenericAlias (under any alias). -/
def bindsTypesAlias : TStmt → Bool
  | .imp al => (find_alias al "types").isSome
  | .impFrom m star al => m == "types" && (star || (find_alias al "GenericAlias").isSome)
  | .line _ => false
  | .classDef _ _ _ _ => false

/- ===================== Comparison driver ===================== -/

/- A live class of the imported implementation module: its bound name, its
qualified module attribute, and whether hasattr finds the subscription
member. -/
structure RClass where
  name : String
  moduleOf : String
  hasGetitem : Bool

structure ImplModule where
  importPath : String
  classes : List RClass

/- The loop of compare_files over inspect.getmembers: classes defined in the
implementation module that are in the generic set and lack the member. -/
def non_subscriptable_classes (m : ImplModule) (generic : List String) : List String :=
  (m.classes.filter
    (fun c => c.moduleOf == m.importPath && !c.hasGetitem && generic.contains c.name)).map
    RClass.name

inductive CompareOutcome where
  | skippedNoGenerics
  | abandonedImplImportFailure
  | checked (nonSubscriptable : List String) (fixedFile : Bool)

def reportedMismatches : CompareOutcome → List String
  | .checked ns _ => ns
  | _ => []

/- compare_files.  The stub-side detection result arrives as an Except: in
runtime mode _get_runtime_generic_classes imports the stub module with no
surrounding try, so its failure propagates out of compare_files.  The
implementation import is wrapped in a bare except and turns into a logged
return.  The fix is written only when enabled and some class is flagged. -/
def compare_files (stubResult : Except Unit (List String))
    (implResult : Except Unit ImplModule) (fix : Bool) : Except Unit CompareOutcome :=
  match stubResult with
  | .error e => .error e
  | .ok generic =>
      if generic.isEmpty then .ok .skippedNoGenerics
      else
        match implResult with
        | .error _ => .ok .abandonedImplImportFailure
        | .ok m =>
            let ns := non_subscriptable_classes m generic
            .ok (.checked ns (fix && !ns.isEmpty))

/- compare_dirs over an already-paired list of entries: each pair is compared
in order; an exception escaping compare_files aborts the whole loop. -/
def compare_dirs (pairs : List (Except Unit (List String) × Except Unit ImplModule))
    (fix : Bool) : Except Unit (List CompareOutcome) :=
  match pairs with
  | [] => .ok []
  | p :: rest =>
      match compare_files p.1 p.2 fix with
      | .error e => .error e
      | .ok o =>
          match compare_dirs rest fix with
          | .error e => .error e
          | .ok os => .ok (o :: os)

/- ===================== Concrete inputs used by the claims ===================== -/

/- A stub defining the same type-parameterized class name twice. -/
def dupStub : SBody :=
  .cons (.classDef "A" true [] .nil) (.cons (.classDef "A" true [] .nil) .nil)

/- A stub with a single type-parameterized class. -/
def oneClassStub : SBody := .cons (.classDef "A" true [] .nil) .nil

/- T = TypeVar("T") textually before the typing import, then class C(G[T]). -/
def typevarLateStub : SBody :=
  .cons (.assign "T" (.callName "TypeVar"))
    (.cons (.impFrom "typing" false [("TypeVar", none)])
      (.cons (.classDef "C" false [.subscript ["T"]] .nil) .nil))

/- The same stub with the import first. -/
def typevarEarlyStub : SBody :=
  .cons (.impFrom "typing" false [("TypeVar", none)])
    (.cons (.assign "T" (.callName "TypeVar"))
      (.cons (.classDef "C" false [.subscript ["T"]] .nil) .nil))

/- Implementation file with a flagged class name appearing both nested inside
another flagged class and at module level:
class A contains the one-line class B, and class B with member x = 1 follows
at module level. -/
def nestedImpl : TBody :=
  .cons (.classDef "A" false "    "
      (TBody.single (.classDef "B" true "" (TBody.single (.line "pass")))))
    (TBody.single (.classDef "B" false "    " (TBody.single (.line "x = 1"))))

/- Its imported module object: module-level classes A and B, neither with the
subscription member. -/
def nestedImplMod : ImplModule := ⟨"a", [⟨"A", "a", false⟩, ⟨"B", "a", false⟩]⟩

/- What the fix produces on nestedImpl: members are appended, but the import
synthesized at the nested class is discarded when the outer class rebuilds
its body from the original statements, so no import remains at all. -/
def nestedImplPatched : TBody :=
  .cons (.classDef "A" false "    "
      (.cons (.classDef "B" true "" (TBody.single (.line "pass")))
        (TBody.single (memberLine "GenericAlias"))))
    (TBody.single (.classDef "B" false "    "
      (.cons (.line "x = 1") (TBody.single (memberLine "GenericAlias")))))

/- A flagged class nested inside another flagged class, both in the set. -/
def c10Impl : TBody :=
  TBody.single (.classDef "Outer" false "    "
    (TBody.single (.classDef "Inner" false "    " (TBody.single (.line "pass")))))

/- The fix output on c10Impl: only Outer gains the member; the edit of Inner
is discarded with the rest of the transformed body. -/
def c10Patched : TBody :=
  TBody.single (.classDef "Outer" false "    "
    (.cons (.classDef "Inner" false "    " (TBody.single (.line "pass")))
      (TBody.single (memberLine "GenericAlias"))))

/- A non-flagged class B containing the flagged class A, followed by the
flagged class C whose block is indented by two spaces. -/
def c3Impl : TBody :=
  .cons (.classDef "B" false "    "
      (TBody.single (.classDef "A" false "    " (TBody.single (.line "pass")))))
    (TBody.single (.classDef "C" false "  " (TBody.single (.line "pass"))))

/- The fix output for B: not in the set, yet its body now holds the
synthesized import and the patched A. -/
def c3PatchedB : TStmt :=
  .classDef "B" false "    "
    (.cons synthImport
      (TBody.single (.classDef "A" false defaultIndent
        (.cons (.line "pass") (TBody.single (memberLine "GenericAlias"))))))

/- The fix output for C: member appended, but the two-space block indent is
replaced by the default four spaces. -/
def c3PatchedC : TStmt :=
  .classDef "C" false defaultIndent
    (.cons (.line "pass") (TBody.single (memberLine "GenericAlias")))

/- A flagged class followed by an already-present types import lower in the
file. -/
def c4Impl : TBody :=
  .cons (.classDef "A" false "    " (TBody.single (.line "pass")))
    (TBody.single (.impFrom "types" false [("GenericAlias", none)]))

/- ===================== Helper lemmas ===================== -/

theorem TBody.single_append (s : TStmt) (b : TBody) : (TBody.single s).append b = .cons s b := rfl

theorem TBody.append_nil : ∀ (b : TBody), b.append .nil = b
  | .nil => rfl
  | .cons s r => by rw [TBody.append, TBody.append_nil r]

theorem TBody.append_assoc : ∀ (a b c : TBody), (a.append b).append c = a.append (b.append c)
  | .nil, _, _ => rfl
  | .cons s r, b, c => by rw [TBody.append, TBody.append, TBody.append, TBody.append_assoc r]

theorem TBody.toList_append : ∀ (a b : TBody), (a.append b).toList = a.toList ++ b.toList
  | .nil, _ => rfl
  | .cons s r, b => by rw [TBody.append, TBody.toList, TBody.toList, TBody.toList_append r, List.cons_append]

theorem visit_Assign_generic (s : VState) (t : String) (v : AValue) :
    (visit_Assign s t v).generic_class_names = s.generic_class_names := by
  unfold visit_Assign
  repeat' split
  all_goals rfl

theorem visit_Import_generic (s : VState) (al : List (String × Option String)) :
    (visit_Import s al).generic_class_names = s.generic_class_names := by
  unfold visit_Import
  split <;> rfl

theorem visit_ImportFrom_generic (s : VState) (m : String) (star : Bool)
    (al : List (String × Option String)) :
    (visit_ImportFrom s m star al).generic_class_names = s.generic_class_names := by
  unfold visit_ImportFrom
  repeat' split
  all_goals rfl

theorem visit_ClassDef_generic (s : VState) (n : String) (tp : Bool) (bs : List SBase) :
    (visit_ClassDef s n tp bs).generic_class_names =
      s.generic_class_names ++
        (if tp then [n] else if basesMatch s.typevars bs then [n] else []) := by
  unfold visit_ClassDef
  repeat' split
  all_goals simp

mutual
theorem visitS_delta (s : VState) (st : SStmt) :
    ∃ d, (visitS s st).generic_class_names = s.generic_class_names ++ d ∧
      d.Sublist (classNamesS st) := by
  cases st with
  | imp al =>
      refine ⟨[], ?_, List.nil_sublist _⟩
      simp [visitS, visit_Import_generic]
  | impFrom m st2 al =>
      refine ⟨[], ?_, List.nil_sublist _⟩
      simp [visitS, visit_ImportFrom_generic]
  | assign t v =>
      refine ⟨[], ?_, List.nil_sublist _⟩
      simp [visitS, visit_Assign_generic]
  | classDef n tp bs b =>
      obtain ⟨d, hd, hsub⟩ := visitBody_delta (visit_ClassDef s n tp bs) b
      refine ⟨(if tp then [n] else if basesMatch s.typevars bs then [n] else []) ++ d, ?_, ?_⟩
      · simp only [visitS, hd, visit_ClassDef_generic, List.append_assoc]
      · rw [classNamesS]
        split
        · exact List.Sublist.cons₂ n hsub
        · split
          · exact List.Sublist.cons₂ n hsub
          · simpa using List.Sublist.cons n hsub

theorem visitBody_delta (s : VState) (b : SBody) :
    ∃ d, (visitBody s b).generic_class_names = s.generic_class_names ++ d ∧
      d.Sublist (classNamesB b) := by
  cases b with
  | nil => exact ⟨[], by simp [visitBody], List.nil_sublist _⟩
  | cons st r =>
      obtain ⟨d1, h1, s1⟩ := visitS_delta s st
      obtain ⟨d2, h2, s2⟩ := visitBody_delta (visitS s st) r
      refine ⟨d1 ++ d2, ?_, ?_⟩
      · rw [visitBody, h2, h1, List.append_assoc]
      · rw [classNamesB]
        exact List.Sublist.append s1 s2
end

mutual
theorem transform_clean_stmt (gen : List String) (g : String) (s : TStmt)
    (h : cleanS gen s = true) : transform_stmt gen g s = (g, TBody.single s) := by
  cases s with
  | imp al =>
      have hn : find_alias al "types" = none := by
        have := h
        rw [cleanS, Option.isNone_iff_eq_none] at this
        exact this
      rw [transform_stmt, ft_visit_Import, hn]
  | impFrom m star al =>
      have hm : ¬ m = "types" := by
        have := h
        rw [cleanS] at this
        simpa using this
      rw [transform_stmt, ft_visit_ImportFrom, if_neg hm]
  | line t => rw [transform_stmt]
  | classDef n su ind b =>
      have hsplit : (!(gen.contains n)) = true ∧ cleanB gen b = true := by
        have := h
        rw [cleanS, Bool.and_eq_true] at this
        exact this
      have h1 : gen.contains n = false := by
        have := hsplit.1
        simpa using this
      have hb := transform_clean_body gen g b hsplit.2
      rw [transform_stmt, hb, h1]
      simp

theorem transform_clean_body (gen : List String) (g : String) (b : TBody)
    (h : cleanB gen b = true) : transform_body gen g b = (g, b) := by
  cases b with
  | nil => rw [transform_body]
  | cons s r =>
      have hsplit : cleanS gen s = true ∧ cleanB gen r = true := by
        have := h
        rw [cleanB, Bool.and_eq_true] at this
        exact this
      have h1 := transform_clean_stmt gen g s hsplit.1
      have h2 := transform_clean_body gen g r hsplit.2
      rw [transform_body, h1]
      simp only [h2, TBody.single_append]

theorem transform_noMatched_stmt (gen : List String) (g : String) (s : TStmt)
    (h : containsMatchedS gen s = false) : (transform_stmt gen g s).2 = TBody.single s := by
  cases s with
  | imp al => rw [transform_stmt]
  | impFrom m star al => rw [transform_stmt]
  | line t => rw [transform_stmt]
  | classDef n su ind b =>
      have hsplit : gen.contains n = false ∧ containsMatchedB gen b = false := by
        have := h
        rw [containsMatchedS, Bool.or_eq_false_iff] at this
        exact this
      have hb := transform_noMatched_body gen g b hsplit.2
      rw [transform_stmt, hsplit.1]
      simp only [Bool.false_eq_true, if_false, hb]

theorem transform_noMatched_body (gen : List String) (g : String) (b : TBody)
    (h : containsMatchedB gen b = false) : (transform_body gen g b).2 = b := by
  cases b with
  | nil => rw [transform_body]
  | cons s r =>
      have hsplit : containsMatchedS gen s = false ∧ containsMatchedB gen r = false := by
        have := h
        rw [containsMatchedB, Bool.or_eq_false_iff] at this
        exact this
      have h1 := transform_noMatched_stmt gen g s hsplit.1
      have h2 := transform_noMatched_body gen (transform_stmt gen g s).1 r hsplit.2
      rw [transform_body]
      simp only [h1, h2, TBody.single_append]
end

theorem append_GenericAlias_ne_empty (n : String) : ¬ n ++ ".GenericAlias" = "" := by
  intro h
  have hl := congrArg String.length h
  simp [String.length_append] at hl
  exact absurd hl.2 (by decide)

theorem find_alias_all_ok (al : List (String × Option String)) (ns n : String)
    (hw : al.all aliasOk = true) (h : find_alias al ns = some n) : ¬ n = "" := by
  induction al with
  | nil => simp [find_alias] at h
  | cons a rest ih =>
      obtain ⟨o, asn⟩ := a
      rw [List.all_cons, Bool.and_eq_true] at hw
      unfold find_alias at h
      by_cases ho : o = ns
      · rw [if_neg (fun hc => hc ho)] at h
        cases asn with
        | none =>
            rw [aliasOk] at hw
            have : o = n := Option.some.inj h
            subst this
            simpa using hw.1
        | some a2 =>
            rw [aliasOk, Bool.and_eq_true] at hw
            have : a2 = n := Option.some.inj h
            subst this
            simpa using hw.1.2
      · rw [if_pos ho] at h
        exact ih hw.2 h

theorem linesOnly_typesImportCount : ∀ (b : TBody), linesOnly b = true → typesImportCountB b = 0
  | .nil, _ => rfl
  | .cons s r, h => by
      rw [linesOnly, Bool.and_eq_true] at h
      have hs : typesImportCountS s = 0 := by
        cases s with
        | line t => rfl
        | imp al => simp [isLine] at h
        | impFrom m star al => simp [isLine] at h
        | classDef n su ind b2 => simp [isLine] at h
      rw [typesImportCountB, hs, linesOnly_typesImportCount r h.2]

theorem typesImportCount_append : ∀ (a b : TBody),
    typesImportCountB (a.append b) = typesImportCountB a + typesImportCountB b
  | .nil, _ => by rw [TBody.append, typesImportCountB, Nat.zero_add]
  | .cons s r, b => by
      rw [TBody.append, typesImportCountB, typesImportCountB, typesImportCount_append r,
        Nat.add_assoc]

mutual
theorem clean_typesImportCountS (gen : List String) (s : TStmt) (h : cleanS gen s = true) :
    typesImportCountS s = 0 := by
  cases s with
  | imp al =>
      rw [cleanS, Option.isNone_iff_eq_none] at h
      rw [typesImportCountS, h]
      rfl
  | impFrom m star al =>
      rw [cleanS] at h
      rw [typesImportCountS, if_neg (by simpa using h)]
  | line t => rfl
  | classDef n su ind b =>
      rw [cleanS, Bool.and_eq_true] at h
      rw [typesImportCountS]
      exact clean_typesImportCountB gen b h.2

theorem clean_typesImportCountB (gen : List String) (b : TBody) (h : cleanB gen b = true) :
    typesImportCountB b = 0 := by
  cases b with
  | nil => rfl
  | cons s r =>
      rw [cleanB, Bool.and_eq_true] at h
      rw [typesImportCountB, clean_typesImportCountS gen s h.1,
        clean_typesImportCountB gen r h.2]
end

theorem typesImportCount_single (s : TStmt) :
    typesImportCountB (TBody.single s) = typesImportCountS s := by
  rw [TBody.single, typesImportCountB, typesImportCountB, Nat.add_zero]

mutual
theorem transform_count_stmt (gen : List String) (g : String) (s : TStmt)
    (hg : ¬ g = "") (hw : wfS s = true) :
    ¬ (transform_stmt gen g s).1 = "" ∧
      typesImportCountB (transform_stmt gen g s).2 = typesImportCountS s := by
  cases s with
  | imp al =>
      rw [transform_stmt]
      refine ⟨?_, typesImportCount_single _⟩
      rw [ft_visit_Import]
      cases hfa : find_alias al "types" with
      | none => exact hg
      | some n => exact append_GenericAlias_ne_empty n
  | impFrom m star al =>
      rw [transform_stmt]
      refine ⟨?_, typesImportCount_single _⟩
      rw [ft_visit_ImportFrom]
      by_cases hm : m = "types"
      · rw [if_pos hm]
        cases star with
        | true => simp
        | false =>
            simp only [Bool.false_eq_true, if_false]
            cases hfa : find_alias al "GenericAlias" with
            | none => exact hg
            | some n =>
                rw [wfS] at hw
                exact find_alias_all_ok al "GenericAlias" n hw hfa
      · rw [if_neg hm]
        exact hg
  | line t =>
      rw [transform_stmt]
      exact ⟨hg, typesImportCount_single _⟩
  | classDef n su ind b =>
      rw [wfS, Bool.and_eq_true] at hw
      obtain ⟨hp1, hp2⟩ := transform_count_body gen g b hg hw.2
      rw [transform_stmt]
      by_cases hc : gen.contains n = true
      · rw [hc]
        simp only [if_true, if_neg hp1]
        refine ⟨hp1, ?_⟩
        rw [typesImportCount_single, typesImportCountS, typesImportCount_append,
          typesImportCount_single, memberLine, typesImportCountS, Nat.add_zero]
        cases su with
        | true =>
            rw [if_pos rfl, typesImportCount_single, typesImportCountS]
            exact (linesOnly_typesImportCount b (by simpa using hw.1)).symm
        | false =>
            rw [if_neg (by simp)]
            exact rfl
      · rw [Bool.not_eq_true] at hc
        rw [hc]
        simp only [Bool.false_eq_true, if_false]
        refine ⟨hp1, ?_⟩
        rw [typesImportCount_single, typesImportCountS, hp2, typesImportCountS]

theorem transform_count_body (gen : List String) (g : String) (b : TBody)
    (hg : ¬ g = "") (hw : wfB b = true) :
    ¬ (transform_body gen g b).1 = "" ∧
      typesImportCountB (transform_body gen g b).2 = typesImportCountB b := by
  cases b with
  | nil => exact ⟨hg, rfl⟩
  | cons s r =>
      rw [wfB, Bool.and_eq_true] at hw
      obtain ⟨h1, h2⟩ := transform_count_stmt gen g s hg hw.1
      obtain ⟨h3, h4⟩ := transform_count_body gen (transform_stmt gen g s).1 r h1 hw.2
      rw [transform_body]
      exact ⟨h3, by rw [typesImportCount_append, h2, h4, typesImportCountB]⟩
end

theorem transform_body_append (gen : List String) : ∀ (b1 : TBody) (g : String) (b2 : TBody),
    transform_body gen g (b1.append b2) =
      ((transform_body gen (transform_body gen g b1).1 b2).1,
        (transform_body gen g b1).2.append
          (transform_body gen (transform_body gen g b1).1 b2).2)
  | .nil, g, b2 => by rw [TBody.append, transform_body]; rfl
  | .cons s r, g, b2 => by
      rw [TBody.append, transform_body, transform_body_append gen r, transform_body]
      simp only [TBody.append_assoc]

theorem types_import_transform (gen : List String) (g : String) (I : TStmt)
    (hI : bindsTypesAlias I = true) (hw : wfS I = true) :
    ¬ (transform_stmt gen g I).1 = "" ∧ (transform_stmt gen g I).2 = TBody.single I := by
  cases I with
  | imp al =>
      rw [transform_stmt]
      refine ⟨?_, rfl⟩
      rw [bindsTypesAlias] at hI
      rw [ft_visit_Import]
      cases hfa : find_alias al "types" with
      | none => rw [hfa] at hI; simp at hI
      | some n => exact append_GenericAlias_ne_empty n
  | impFrom m star al =>
      rw [transform_stmt]
      refine ⟨?_, rfl⟩
      rw [bindsTypesAlias, Bool.and_eq_true] at hI
      have hm : m = "types" := by simpa using hI.1
      rw [ft_visit_ImportFrom, if_pos hm]
      cases star with
      | true =>
          have hne : ¬ ("GenericAlias" : String) = "" := by decide
          exact fun h => hne h
      | false =>
          simp only [Bool.false_eq_true, if_false]
          have hs : (find_alias al "GenericAlias").isSome = true := by simpa using hI.2
          cases hfa : find_alias al "GenericAlias" with
          | none => rw [hfa] at hs; simp at hs
          | some n =>
              rw [wfS] at hw
              exact find_alias_all_ok al "GenericAlias" n hw hfa
  | line t => simp [bindsTypesAlias] at hI
  | classDef n su ind b => simp [bindsTypesAlias] at hI

theorem compare_files_ok_total (gl : List String) (impl : Except Unit ImplModule) (fix : Bool) :
    ∃ o, compare_files (Except.ok gl) impl fix = Except.ok o := by
  rw [compare_files.eq_def]
  simp only []
  by_cases h : gl.isEmpty = true
  · rw [if_pos h]
    exact ⟨_, rfl⟩
  · rw [if_neg h]
    cases impl with
    | error e => exact ⟨_, rfl⟩
    | ok m => exact ⟨_, rfl⟩

/- ===================== Claims ===================== -/

/-- C1 (code_bug): the claim says the dotted import path is obtained by
joining the path components with dots and stripping the extension from the
end, preserving any final component that is a valid module name.  The code
calls str.rstrip with the extension string, which removes a trailing run of
characters drawn from that set: on the stub path happy.pyi it yields "ha"
where the claim requires "happy". -/
theorem c1_module_path_extension_bug :
    convert_to_module_path ["happy.pyi"] ".pyi" = "ha" ∧
    spec_convert_to_module_path ["happy.pyi"] ".pyi" = "happy" ∧
    convert_to_module_path ["happy.pyi"] ".pyi" ≠
      spec_convert_to_module_path ["happy.pyi"] ".pyi" :=
  ⟨rfl, rfl, by decide⟩

/-- C2 (code_bug): patch idempotence fails when a flagged class name occurs
nested inside another flagged class.  On nestedImpl with unsupported set
A, B (exactly what the runtime check computes from its module object), the
fix appends both module-level members, but the outer flagged class rebuilds
its body from the original statements and thereby discards the import that
was synthesized while its nested flagged class was being patched: the
patched file holds two lines referring to GenericAlias and zero imports of
the types namespace, so re-importing the implementation raises a NameError
and the re-analysis is abandoned instead of yielding an empty unsupported
set. -/
theorem c2_patch_idempotence_failing_input :
    non_subscriptable_classes nestedImplMod ["A", "B"] = ["A", "B"] ∧
    fileTransform ["A", "B"] nestedImpl = nestedImplPatched ∧
    typesImportCountB (fileTransform ["A", "B"] nestedImpl) = 0 ∧
    getitemCountB (fileTransform ["A", "B"] nestedImpl) = 2 :=
  ⟨rfl, rfl, rfl, rfl⟩

/-- C6 (confirmed): when the detected generic-class set of the stub is empty,
compare_files returns the skip outcome before the implementation import is
even consulted — the result is the same for every implementation-side value,
no mismatch is reported and no file is written. -/
theorem c6_zero_generic_fast_path (g : List String) (impl1 impl2 : Except Unit ImplModule)
    (fix : Bool) (h : g = []) :
    compare_files (Except.ok g) impl1 fix = Except.ok CompareOutcome.skippedNoGenerics ∧
    compare_files (Except.ok g) impl1 fix = compare_files (Except.ok g) impl2 fix ∧
    reportedMismatches CompareOutcome.skippedNoGenerics = [] := by
  subst h
  exact ⟨rfl, rfl, rfl⟩

theorem c6_zero_generic_fast_path_witness :
    compare_files (Except.ok []) (Except.ok ⟨"m", []⟩) true =
      Except.ok CompareOutcome.skippedNoGenerics ∧
    compare_files (Except.ok []) (Except.ok ⟨"m", []⟩) true =
      compare_files (Except.ok []) (Except.error ()) true ∧
    reportedMismatches CompareOutcome.skippedNoGenerics = [] :=
  c6_zero_generic_fast_path [] (Except.ok ⟨"m", []⟩) (Except.error ()) true rfl

/-- C7 (confirmed): a class declared with explicit type-parameter syntax is
recorded by the detector unconditionally: for every visitor state and every
list of bases, visiting it appends exactly its name and the bases are never
consulted. -/
theorem c7_type_parameter_syntax_unconditional (s : VState) (name : String)
    (bases : List SBase) (body : SBody) :
    visitS s (SStmt.classDef name true bases body) =
      visitBody { s with generic_class_names := s.generic_class_names ++ [name] } body :=
  rfl

/-- C8 (confirmed): a type-variable construction seen while no governing
binding from an import is active leaves the visitor state unchanged, and detection
through a subscripted base is order-sensitive: with the typing import after
the construction the class C is silently not detected, and with the import
first it is. -/
theorem c8_order_sensitivity (s : VState) (t : String) (v : AValue)
    (h : s.typevar_name = "") :
    visit_Assign s t v = s ∧
    get_ast_generic_classes typevarLateStub = [] ∧
    get_ast_generic_classes typevarEarlyStub = ["C"] := by
  refine ⟨?_, rfl, rfl⟩
  rw [visit_Assign.eq_def, if_pos h]

theorem c8_order_sensitivity_witness :
    visit_Assign ⟨"", [], []⟩ "T" (AValue.callName "TypeVar") = ⟨"", [], []⟩ ∧
    get_ast_generic_classes typevarLateStub = [] ∧
    get_ast_generic_classes typevarEarlyStub = ["C"] :=
  c8_order_sensitivity ⟨"", [], []⟩ "T" (AValue.callName "TypeVar") rfl

/-- C9 counterexample: a stub that defines the type-parameterized class name
A twice makes the detector emit A twice — the collection the detector
produces is a plain list with no de-duplication. -/
theorem c9_duplicate_names_detected_twice :
    get_ast_generic_classes dupStub = ["A", "A"] ∧
    ¬ (get_ast_generic_classes dupStub).Nodup :=
  ⟨rfl, by decide⟩

/-- C9 (corrected, amended): each class definition contributes its name to
the detector output at most once, so whenever all class definitions in the
stub carry pairwise distinct names the output contains no name more than
once; duplicate definitions of a name, however, produce duplicates. -/
theorem c9_distinct_names_nodup (m : SBody) (h : (classNamesB m).Nodup) :
    (get_ast_generic_classes m).Nodup := by
  obtain ⟨d, hd, hs⟩ := visitBody_delta initVState m
  have he : get_ast_generic_classes m = d := by
    rw [get_ast_generic_classes, hd]
    rfl
  rw [he]
  exact List.Nodup.sublist hs h

theorem c9_distinct_names_nodup_witness :
    (classNamesB oneClassStub).Nodup ∧ (get_ast_generic_classes oneClassStub).Nodup :=
  ⟨by decide, c9_distinct_names_nodup oneClassStub (by decide)⟩

/-- C3 counterexample: with unsupported set A, C on c3Impl, the patcher
returns class B — whose name is not in the set — with a changed body (it now
holds the synthesized import and the patched nested A, so its serialization
differs from the original), and for the flagged class C it replaces the
original two-space block indentation by the default four spaces, so the
pre-existing member pass is re-serialized differently as well. -/
theorem c3_nonmatched_class_not_byte_identical :
    fileTransform ["A", "C"] c3Impl = .cons c3PatchedB (TBody.single c3PatchedC) ∧
    renderStmt "" c3PatchedB ≠
      renderStmt "" (.classDef "B" false "    "
        (TBody.single (.classDef "A" false "    " (TBody.single (.line "pass"))))) ∧
    renderStmt "" c3PatchedC =
      "class C:\n    pass\n    __class_getitem__ = classmethod(GenericAlias)\n" ∧
    renderStmt "" (.classDef "C" false "  " (TBody.single (.line "pass"))) =
      "class C:\n  pass\n" :=
  ⟨rfl, by decide, rfl, rfl⟩

/-- C3 (corrected, amended): a class definition that is not in the
unsupported set and contains no flagged class at any depth is returned
byte-identical (the transformer emits exactly the original statement), and a
flagged class — block-bodied or one-line-suite-bodied alike — keeps its
original member statements in order (a one-line suite first wrapped into a
single joined statement line) with the new member appended at the end,
the body re-serialized as an indented block at the default indentation,
preceded by the synthesized import exactly when no alias is bound at that
point. -/
theorem c3_patch_minimality_amended
    (gen : List String) (g : String) (s : TStmt)
    (h : containsMatchedS gen s = false)
    (gB name ind : String) (suite : Bool) (body : TBody)
    (h2 : gen.contains name = true) :
    (transform_stmt gen g s).2 = TBody.single s ∧
    (transform_stmt gen gB (TStmt.classDef name suite ind body)).2.toList =
      (if (transform_body gen gB body).1 = "" then [synthImport] else []) ++
      [TStmt.classDef name false defaultIndent
        (TBody.append
          (if suite then TBody.single (TStmt.line (suiteJoin body)) else body)
          (TBody.single (memberLine
            (if (transform_body gen gB body).1 = "" then "GenericAlias"
             else (transform_body gen gB body).1))))] := by
  refine ⟨transform_noMatched_stmt gen g s h, ?_⟩
  rw [transform_stmt, h2]
  simp only [if_true]
  by_cases hp : (transform_body gen gB body).1 = ""
  · simp only [if_pos hp, TBody.single, TBody.toList, List.nil_append, List.cons_append]
  · simp only [if_neg hp, TBody.single, TBody.toList, List.nil_append]

theorem c3_patch_minimality_amended_witness :
    (transform_stmt ["A"] "" (TStmt.line "y")).2 = TBody.single (TStmt.line "y") ∧
    (transform_stmt ["A"] "" (TStmt.classDef "A" true "    "
        (TBody.single (TStmt.line "pass")))).2.toList =
      (if (transform_body ["A"] "" (TBody.single (TStmt.line "pass"))).1 = ""
        then [synthImport] else []) ++
      [TStmt.classDef "A" false defaultIndent
        (TBody.append
          (if true then TBody.single (TStmt.line (suiteJoin (TBody.single (TStmt.line "pass"))))
           else TBody.single (TStmt.line "pass"))
          (TBody.single (memberLine
            (if (transform_body ["A"] "" (TBody.single (TStmt.line "pass"))).1 = ""
              then "GenericAlias"
              else (transform_body ["A"] "" (TBody.single (TStmt.line "pass"))).1))))] :=
  c3_patch_minimality_amended ["A"] "" (TStmt.line "y") rfl "" "A" "    " true
    (TBody.single (TStmt.line "pass")) rfl

/-- C10 counterexample: with both Outer and Inner in the unsupported set, the
patcher leaves the nested flagged class Inner without the new member: the
leave of the outer flagged class rebuilds its body from the original
statements, discarding the edit of Inner, so only one member line exists in
the output although two class definitions carry flagged names. -/
theorem c10_nested_matched_edit_discarded :
    fileTransform ["Outer", "Inner"] c10Impl = c10Patched ∧
    getitemCountB (fileTransform ["Outer", "Inner"] c10Impl) = 1 :=
  ⟨rfl, rfl⟩

/-- C10 (corrected, amended): the patcher selects classes by name alone.
A non-flagged class always passes through with its transformed children
kept, so a flagged class nested inside it is patched in place — also on a
first run with the alias still unbound, where the synthesized import lands
inside the enclosing body, and with arbitrary sibling statements around the
nested class — and every redefinition of a flagged name receives the
appended member.  The exception: when a flagged class is nested inside
another flagged class, the outer class rebuilds its body from the original
statements and the nested edit is discarded. -/
theorem c10_name_only_selection_amended
    (gen : List String) (g : String) (outerN indO : String) (so : Bool) (b : TBody)
    (houter : gen.contains outerN = false)
    (Q cb R : TBody) (innerN ind2 : String)
    (hQ : cleanB gen Q = true) (hcb : cleanB gen cb = true)
    (hinner : gen.contains innerN = true)
    (name ind1 ind3 : String) (cb1 cb2 : TBody)
    (hname : gen.contains name = true)
    (hcb1 : cleanB gen cb1 = true) (hcb2 : cleanB gen cb2 = true)
    (outerM : String) (hM : gen.contains outerM = true)
    (g2 : String) (hg2 : ¬ g2 = "") (b2 : TBody) (hb2 : cleanB gen b2 = true) :
    transform_stmt gen g (TStmt.classDef outerN so indO b) =
      ((transform_body gen g b).1,
        TBody.single (TStmt.classDef outerN so indO (transform_body gen g b).2)) ∧
    transform_stmt gen "" (TStmt.classDef outerN so indO
        (Q.append (TBody.cons (TStmt.classDef innerN false ind2 cb) R))) =
      ((transform_body gen "GenericAlias" R).1,
        TBody.single (TStmt.classDef outerN so indO
          (Q.append (TBody.cons synthImport (TBody.cons
            (TStmt.classDef innerN false defaultIndent
              (TBody.append cb (TBody.single (memberLine "GenericAlias"))))
            (transform_body gen "GenericAlias" R).2))))) ∧
    fileTransform gen (TBody.cons (TStmt.classDef name false ind1 cb1)
        (TBody.cons (TStmt.classDef name false ind3 cb2) TBody.nil)) =
      TBody.cons synthImport (TBody.cons
        (TStmt.classDef name false defaultIndent
          (TBody.append cb1 (TBody.single (memberLine "GenericAlias"))))
        (TBody.cons (TStmt.classDef name false defaultIndent
          (TBody.append cb2 (TBody.single (memberLine "GenericAlias")))) TBody.nil)) ∧
    transform_stmt gen g2 (TStmt.classDef outerM false indO
        (TBody.single (TStmt.classDef innerN false ind2 b2))) =
      (g2, TBody.single (TStmt.classDef outerM false defaultIndent
        ((TBody.single (TStmt.classDef innerN false ind2 b2)).append
          (TBody.single (memberLine g2))))) := by
  refine ⟨?_, ?_, ?_, ?_⟩
  · rw [transform_stmt, houter]
    simp only [Bool.false_eq_true, if_false]
  · have hQt := transform_clean_body gen "" Q hQ
    have hcbt := transform_clean_body gen "" cb hcb
    have hInner : transform_stmt gen "" (TStmt.classDef innerN false ind2 cb) =
        ("GenericAlias", TBody.cons synthImport (TBody.single
          (TStmt.classDef innerN false defaultIndent
            (TBody.append cb (TBody.single (memberLine "GenericAlias")))))) := by
      rw [transform_stmt, hcbt, hinner]
      simp only [if_true, Bool.false_eq_true, if_false, if_pos rfl]
    have hCons : transform_body gen "" (TBody.cons (TStmt.classDef innerN false ind2 cb) R) =
        ((transform_body gen "GenericAlias" R).1,
          TBody.cons synthImport (TBody.cons
            (TStmt.classDef innerN false defaultIndent
              (TBody.append cb (TBody.single (memberLine "GenericAlias"))))
            (transform_body gen "GenericAlias" R).2)) := by
      rw [transform_body, hInner]
      simp only [TBody.append, TBody.single]
    have hFull : transform_body gen ""
        (Q.append (TBody.cons (TStmt.classDef innerN false ind2 cb) R)) =
        ((transform_body gen "GenericAlias" R).1,
          Q.append (TBody.cons synthImport (TBody.cons
            (TStmt.classDef innerN false defaultIndent
              (TBody.append cb (TBody.single (memberLine "GenericAlias"))))
            (transform_body gen "GenericAlias" R).2))) := by
      rw [transform_body_append gen Q "" _, hQt, hCons]
    rw [transform_stmt, hFull, houter]
    simp only [Bool.false_eq_true, if_false]
  · have h1 : transform_stmt gen "" (TStmt.classDef name false ind1 cb1) =
        ("GenericAlias", TBody.cons synthImport (TBody.single
          (TStmt.classDef name false defaultIndent
            (TBody.append cb1 (TBody.single (memberLine "GenericAlias")))))) := by
      rw [transform_stmt, transform_clean_body gen "" cb1 hcb1, hname]
      simp only [if_true, Bool.false_eq_true, if_false, if_pos rfl]
    have h2 : transform_stmt gen "GenericAlias" (TStmt.classDef name false ind3 cb2) =
        ("GenericAlias", TBody.single
          (TStmt.classDef name false defaultIndent
            (TBody.append cb2 (TBody.single (memberLine "GenericAlias"))))) := by
      rw [transform_stmt, transform_clean_body gen "GenericAlias" cb2 hcb2, hname]
      simp only [if_true, Bool.false_eq_true, if_false,
        if_neg (by decide : ¬ ("GenericAlias" : String) = "")]
    rw [fileTransform, transform_body, h1, transform_body, h2, transform_body]
    simp only [TBody.append, TBody.single]
  · have hbt := transform_clean_body gen g2 b2 hb2
    have hin : transform_stmt gen g2 (TStmt.classDef innerN false ind2 b2) =
        (g2, TBody.single (TStmt.classDef innerN false defaultIndent
          (TBody.append b2 (TBody.single (memberLine g2))))) := by
      rw [transform_stmt, hbt, hinner]
      simp only [if_true, Bool.false_eq_true, if_false, if_neg hg2]
    have hbody : transform_body gen g2
        (TBody.single (TStmt.classDef innerN false ind2 b2)) =
        (g2, TBody.single (TStmt.classDef innerN false defaultIndent
          (TBody.append b2 (TBody.single (memberLine g2))))) := by
      rw [TBody.single, transform_body, hin, transform_body]
      simp only [TBody.append_nil]
    rw [transform_stmt, hbody, hM]
    simp only [if_true, Bool.false_eq_true, if_false, if_neg hg2]

theorem c10_name_only_selection_amended_witness :
    transform_stmt ["I", "N", "M"] "" (TStmt.classDef "O" false "    " TBody.nil) =
      ((transform_body ["I", "N", "M"] "" TBody.nil).1,
        TBody.single (TStmt.classDef "O" false "    "
          (transform_body ["I", "N", "M"] "" TBody.nil).2)) ∧
    transform_stmt ["I", "N", "M"] "" (TStmt.classDef "O" false "    "
        ((TBody.single (TStmt.line "x = 1")).append
          (TBody.cons (TStmt.classDef "I" false "    " TBody.nil) TBody.nil))) =
      ((transform_body ["I", "N", "M"] "GenericAlias" TBody.nil).1,
        TBody.single (TStmt.classDef "O" false "    "
          ((TBody.single (TStmt.line "x = 1")).append (TBody.cons synthImport (TBody.cons
            (TStmt.classDef "I" false defaultIndent
              (TBody.append TBody.nil (TBody.single (memberLine "GenericAlias"))))
            (transform_body ["I", "N", "M"] "GenericAlias" TBody.nil).2))))) ∧
    fileTransform ["I", "N", "M"] (TBody.cons
        (TStmt.classDef "N" false "    " (TBody.single (TStmt.line "pass")))
        (TBody.cons (TStmt.classDef "N" false "  " TBody.nil) TBody.nil)) =
      TBody.cons synthImport (TBody.cons
        (TStmt.classDef "N" false defaultIndent
          (TBody.append (TBody.single (TStmt.line "pass"))
            (TBody.single (memberLine "GenericAlias"))))
        (TBody.cons (TStmt.classDef "N" false defaultIndent
          (TBody.append TBody.nil (TBody.single (memberLine "GenericAlias")))) TBody.nil)) ∧
    transform_stmt ["I", "N", "M"] "T.GenericAlias" (TStmt.classDef "M" false "    "
        (TBody.single (TStmt.classDef "I" false "    " TBody.nil))) =
      ("T.GenericAlias", TBody.single (TStmt.classDef "M" false defaultIndent
        ((TBody.single (TStmt.classDef "I" false "    " TBody.nil)).append
          (TBody.single (memberLine "T.GenericAlias"))))) :=
  c10_name_only_selection_amended ["I", "N", "M"] "" "O" "    " false TBody.nil rfl
    (TBody.single (TStmt.line "x = 1")) TBody.nil TBody.nil "I" "    " rfl rfl rfl
    "N" "    " "  " (TBody.single (TStmt.line "pass")) TBody.nil rfl rfl rfl
    "M" rfl "T.GenericAlias" (by decide) TBody.nil rfl

/-- C4 counterexample: on a file whose types import lies below the first
flagged class, an import of the subscription-alias facility already exists,
yet the patcher inserts a second one: the single-pass alias state is still
empty when the class is left, so the output holds two types imports. -/
theorem c4_duplicate_import_inserted :
    typesImportCountB c4Impl = 1 ∧
    typesImportCountB (fileTransform ["A"] c4Impl) = 2 ∧
    fileTransform ["A"] c4Impl =
      .cons synthImport
        (.cons (.classDef "A" false defaultIndent
          (.cons (.line "pass") (TBody.single (memberLine "GenericAlias"))))
          (TBody.single (.impFrom "types" false [("GenericAlias", none)]))) :=
  ⟨rfl, rfl, rfl⟩

/-- C4 (corrected, amended): when no types import and no flagged class
precede the first flagged class, the patcher synthesizes exactly one
statement from types import GenericAlias, flattened in immediately before
that class within the enclosing body, and the number of types imports grows
by exactly one; a module-level first flagged class therefore gets the
statement lexically before every flagged class that follows, while a first
flagged class nested inside a non-flagged class receives it inside that
enclosing body, where it is not visible at module level.  When any types
statement that binds the alias — module-form, from-form, starred or aliased
— precedes the first flagged class in document order, in particular on a
second run of the fix, no further import is inserted. -/
theorem c4_import_synthesis_amended
    (gen : List String) (P cb R : TBody) (name ind : String)
    (hP : cleanB gen P = true) (hcb : cleanB gen cb = true)
    (hname : gen.contains name = true) (hR : wfB R = true)
    (outerN indO : String) (houter : gen.contains outerN = false)
    (I : TStmt) (hI : bindsTypesAlias I = true) (hwI : wfS I = true)
    (P2 R2 : TBody) (hP2 : cleanB gen P2 = true) (hR2 : wfB R2 = true) :
    fileTransform gen (P.append (TBody.cons (TStmt.classDef name false ind cb) R)) =
      P.append (TBody.cons synthImport (TBody.cons
        (TStmt.classDef name false defaultIndent
          (TBody.append cb (TBody.single (memberLine "GenericAlias"))))
        (transform_body gen "GenericAlias" R).2)) ∧
    typesImportCountB
        (fileTransform gen (P.append (TBody.cons (TStmt.classDef name false ind cb) R))) =
      typesImportCountB (P.append (TBody.cons (TStmt.classDef name false ind cb) R)) + 1 ∧
    transform_stmt gen "" (TStmt.classDef outerN false indO
        (P.append (TBody.cons (TStmt.classDef name false ind cb) R))) =
      ((transform_body gen "GenericAlias" R).1,
        TBody.single (TStmt.classDef outerN false indO
          (P.append (TBody.cons synthImport (TBody.cons
            (TStmt.classDef name false defaultIndent
              (TBody.append cb (TBody.single (memberLine "GenericAlias"))))
            (transform_body gen "GenericAlias" R).2))))) ∧
    typesImportCountB (fileTransform gen (P2.append (TBody.cons I R2))) =
      typesImportCountB (P2.append (TBody.cons I R2)) := by
  have hPt := transform_clean_body gen "" P hP
  have hcbt := transform_clean_body gen "" cb hcb
  have hC : transform_stmt gen "" (TStmt.classDef name false ind cb) =
      ("GenericAlias", TBody.cons synthImport (TBody.single
        (TStmt.classDef name false defaultIndent
          (TBody.append cb (TBody.single (memberLine "GenericAlias")))))) := by
    rw [transform_stmt, hcbt, hname]
    simp only [if_true, Bool.false_eq_true, if_false, if_pos rfl]
  have hBody : transform_body gen "" (TBody.cons (TStmt.classDef name false ind cb) R) =
      ((transform_body gen "GenericAlias" R).1,
        TBody.cons synthImport (TBody.cons
          (TStmt.classDef name false defaultIndent
            (TBody.append cb (TBody.single (memberLine "GenericAlias"))))
          (transform_body gen "GenericAlias" R).2)) := by
    rw [transform_body, hC]
    simp only [TBody.append, TBody.single]
  have hFull : transform_body gen ""
      (P.append (TBody.cons (TStmt.classDef name false ind cb) R)) =
      ((transform_body gen "GenericAlias" R).1,
        P.append (TBody.cons synthImport (TBody.cons
          (TStmt.classDef name false defaultIndent
            (TBody.append cb (TBody.single (memberLine "GenericAlias"))))
          (transform_body gen "GenericAlias" R).2))) := by
    rw [transform_body_append gen P "" _, hPt, hBody]
  have hmain : fileTransform gen (P.append (TBody.cons (TStmt.classDef name false ind cb) R)) =
      P.append (TBody.cons synthImport (TBody.cons
        (TStmt.classDef name false defaultIndent
          (TBody.append cb (TBody.single (memberLine "GenericAlias"))))
        (transform_body gen "GenericAlias" R).2)) := by
    rw [fileTransform, hFull]
  have hR0 := (transform_count_body gen "GenericAlias" R (by decide) hR).2
  have hcb0 := clean_typesImportCountB gen cb hcb
  have hP0 := clean_typesImportCountB gen P hP
  refine ⟨hmain, ?_, ?_, ?_⟩
  · rw [hmain, typesImportCount_append, typesImportCount_append, hP0]
    simp only [typesImportCountB, typesImportCountS, typesImportCount_append,
      typesImportCount_single, memberLine, synthImport, hR0, hcb0, if_true,
      Nat.zero_add, Nat.add_zero]
    omega
  · rw [transform_stmt, hFull, houter]
    simp only [Bool.false_eq_true, if_false]
  · obtain ⟨hI1, hI2⟩ := types_import_transform gen "" I hI hwI
    have hP2t := transform_clean_body gen "" P2 hP2
    have hBody2 : transform_body gen "" (TBody.cons I R2) =
        ((transform_body gen (transform_stmt gen "" I).1 R2).1,
          TBody.cons I (transform_body gen (transform_stmt gen "" I).1 R2).2) := by
      rw [transform_body, hI2, TBody.single_append]
    have hR20 := (transform_count_body gen (transform_stmt gen "" I).1 R2 hI1 hR2).2
    rw [fileTransform, transform_body_append gen P2 "" _, hP2t, hBody2,
      typesImportCount_append, typesImportCount_append,
      clean_typesImportCountB gen P2 hP2, typesImportCountB, typesImportCountB, hR20]

theorem c4_import_synthesis_amended_witness :
    fileTransform ["A"] (TBody.nil.append (TBody.cons
        (TStmt.classDef "A" false "    " (TBody.single (TStmt.line "pass"))) TBody.nil)) =
      TBody.nil.append (TBody.cons synthImport (TBody.cons
        (TStmt.classDef "A" false defaultIndent
          (TBody.append (TBody.single (TStmt.line "pass"))
            (TBody.single (memberLine "GenericAlias"))))
        (transform_body ["A"] "GenericAlias" TBody.nil).2)) ∧
    typesImportCountB (fileTransform ["A"] (TBody.nil.append (TBody.cons
        (TStmt.classDef "A" false "    " (TBody.single (TStmt.line "pass"))) TBody.nil))) =
      typesImportCountB (TBody.nil.append (TBody.cons
        (TStmt.classDef "A" false "    " (TBody.single (TStmt.line "pass"))) TBody.nil)) + 1 ∧
    transform_stmt ["A"] "" (TStmt.classDef "O" false "    "
        (TBody.nil.append (TBody.cons
          (TStmt.classDef "A" false "    " (TBody.single (TStmt.line "pass"))) TBody.nil))) =
      ((transform_body ["A"] "GenericAlias" TBody.nil).1,
        TBody.single (TStmt.classDef "O" false "    "
          (TBody.nil.append (TBody.cons synthImport (TBody.cons
            (TStmt.classDef "A" false defaultIndent
              (TBody.append (TBody.single (TStmt.line "pass"))
                (TBody.single (memberLine "GenericAlias"))))
            (transform_body ["A"] "GenericAlias" TBody.nil).2))))) ∧
    typesImportCountB (fileTransform ["A"]
        (TBody.nil.append (TBody.cons (TStmt.imp [("types", some "t")]) TBody.nil))) =
      typesImportCountB (TBody.nil.append (TBody.cons (TStmt.imp [("types", some "t")]) TBody.nil)) :=
  c4_import_synthesis_amended ["A"] TBody.nil (TBody.single (TStmt.line "pass")) TBody.nil
    "A" "    " rfl rfl rfl rfl "O" "    " rfl (TStmt.imp [("types", some "t")]) rfl rfl
    TBody.nil TBody.nil rfl rfl

/-- C5 counterexample: a failed stub-module import is not caught anywhere —
the exception escapes compare_files and aborts the traversal, so a directory
whose first pair has a failing stub import produces no result at all for the
remaining pairs, although the second pair on its own compares fine.  The
failure is therefore fatal to the run, contradicting the claim. -/
theorem c5_stub_import_failure_fatal :
    compare_dirs [(Except.error (), Except.ok ⟨"a", []⟩),
        (Except.ok ["X"], Except.ok ⟨"b", []⟩)] false = Except.error () ∧
    compare_dirs [(Except.ok ["X"], Except.ok ⟨"b", []⟩)] false =
      Except.ok [CompareOutcome.checked [] false] :=
  ⟨rfl, rfl⟩

/-- C5 (corrected, amended): only the implementation-module import failure is
recoverable per file pair — it is caught by the bare except, the pair is
abandoned with the dedicated outcome, and the traversal completes with one
outcome per entry whenever every stub-side detection succeeds.  A failing
stub-module import (runtime mode) propagates uncaught and aborts the run. -/
theorem c5_impl_import_failure_recoverable
    (g : List String) (fix : Bool) (hg : g ≠ [])
    (pairs : List (Except Unit (List String) × Except Unit ImplModule)) (fix2 : Bool)
    (hok : ∀ p ∈ pairs, ∃ gl, p.1 = Except.ok gl) :
    compare_files (Except.ok g) (Except.error ()) fix =
      Except.ok CompareOutcome.abandonedImplImportFailure ∧
    ∃ os, compare_dirs pairs fix2 = Except.ok os ∧ os.length = pairs.length := by
  constructor
  · rw [compare_files.eq_def]
    simp only []
    rw [if_neg (by simp [List.isEmpty_iff, hg])]
  · induction pairs with
    | nil => exact ⟨[], rfl, rfl⟩
    | cons p rest ih =>
        obtain ⟨gl, hgl⟩ := hok p (by simp)
        obtain ⟨o, ho⟩ := compare_files_ok_total gl p.2 fix2
        obtain ⟨os, hos, hlen⟩ := ih (fun q hq => hok q (by simp [hq]))
        refine ⟨o :: os, ?_, by simp [hlen]⟩
        rw [compare_dirs, hgl, ho, hos]

theorem c5_impl_import_failure_recoverable_witness :
    compare_files (Except.ok ["X"]) (Except.error ()) true =
      Except.ok CompareOutcome.abandonedImplImportFailure ∧
    ∃ os, compare_dirs [(Except.ok [], Except.error ()),
        (Except.ok ["Y"], Except.ok ⟨"m", []⟩)] false = Except.ok os ∧
      os.length = 2 :=
  c5_impl_import_failure_recoverable ["X"] true (by decide)
    [(Except.ok [], Except.error ()), (Except.ok ["Y"], Except.ok ⟨"m", []⟩)] false
    (by
      intro p hp
      rw [List.mem_cons, List.mem_singleton] at hp
      cases hp with
      | inl h => exact ⟨[], by rw [h]⟩
      | inr h => exact ⟨["Y"], by rw [h]⟩)
